import Mathlib

/-!
Shallow embedding of the AI Studio coordinator (src/coordinator) used to
verify the specification claims. Python objects are modelled by explicit
values. ChildProcess objects are identified by a numeric id standing in for
Python object identity, and the mutable heap of child objects is a total
function from ids to field records. Outbound HTTP interactions are supplied
as oracles describing the outcome of each attempt.
-/

/- ===== coordinator/types.py ===== -/

/-- Port assignments for a child proxy process (types.ChildPorts). -/
structure ChildPorts where
  api_port : Int
  stream_port : Int
  camoufox_port : Int
deriving DecidableEq, Repr

/-- An authentication profile (types.AuthProfile); only its name is relevant
to the claims here. -/
abbrev AuthProfile := String

/-- Snapshot of a ChildProcess object (types.ChildProcess): pid is the
object identity; alive models process.poll() returning None. -/
structure Child where
  pid : Nat
  profile : AuthProfile
  alive : Bool
  ready : Bool
deriving DecidableEq, Repr

/-- Outcome of broadcasting a cancellation (types.CancelResult). -/
structure CancelResult where
  success : Bool
  responders : List String
  failures : List String
deriving DecidableEq, Repr

/- ===== coordinator/main.py ===== -/

/-- main.assign_ports. The error values carry the ValueError messages of the
source. -/
def assign_ports (count : Int) (base_api base_stream base_camoufox : Int)
    (step : Int) : Except String (List ChildPorts) :=
  if count < 0 then .error "Child count must be non-negative."
  else if step ≤ 0 then .error "Port step must be a positive integer."
  else .ok ((List.range count.toNat).map fun index : Nat =>
    { api_port := base_api + (index : Int) * step
      stream_port := base_stream + (index : Int) * step
      camoufox_port := base_camoufox + (index : Int) * step })

/- ===== coordinator/health.py ===== -/

/-- Outcome of one poll of the child health endpoint (health.wait_for_ready).
transportError models httpx.HTTPError. In a response, the body is none when
JSON decoding raised ValueError, and otherwise carries the optional value of
the status field of the decoded object. -/
inductive PollOutcome
  | transportError
  | response (status_code : Nat) (body : Option (Option String))
deriving DecidableEq, Repr

/-- A poll succeeds exactly when it returns HTTP 200 with a JSON body whose
status field equals OK (health.wait_for_ready lines 25-41). -/
def pollOk : PollOutcome → Bool
  | .transportError => false
  | .response code body => code == 200 && body == some (some "OK")

/-- health.wait_for_ready. The list holds the outcome of each poll attempt
that fits before the monotonic deadline; the function returns true at the
first successful poll after setting the ready flag, and returns false when
the deadline is exhausted. Each attempt failure (non-200 status, JSON decode
error, transport error) is caught in the source, so the model is total. -/
def wait_for_ready (child : Child) : List PollOutcome → Child × Bool
  | [] => (child, false)
  | p :: rest =>
    if pollOk p then ({ child with ready := true }, true)
    else wait_for_ready child rest

/- ===== coordinator/routing.py ===== -/

/-- routing.ChildRequestError; the source constructor defaults retryable to
true. -/
structure ChildRequestError where
  message : String
  retryable : Bool
deriving DecidableEq, Repr

/-- Outcome of one outbound HTTP request to a child. -/
inductive ForwardOutcome
  | transportError (msg : String)
  | response (status_code : Nat)
deriving DecidableEq, Repr

/-- routing.forward_completion: a transport error or a status of at least 500
raises ChildRequestError with the default retryable flag; any other response
is returned (modelled by its status code). -/
def forward_completion : ForwardOutcome → Except ChildRequestError Nat
  | .transportError msg =>
    .error { message := "Request failed: " ++ msg, retryable := true }
  | .response code =>
    if code ≥ 500 then
      .error { message := "Child responded with " ++ toString code, retryable := true }
    else .ok code

/-- routing.forward_models: identical error classification to
forward_completion. -/
def forward_models : ForwardOutcome → Except ChildRequestError Nat
  | .transportError msg =>
    .error { message := "Request failed: " ++ msg, retryable := true }
  | .response code =>
    if code ≥ 500 then
      .error { message := "Child responded with " ++ toString code, retryable := true }
    else .ok code

/-- Outcome of POSTing the cancel route to one child
(routing.broadcast_cancel). -/
inductive CancelOutcome
  | transportError
  | response (status_code : Nat)
deriving DecidableEq, Repr

/-- The loop body of routing.broadcast_cancel: a 200 response appends the
profile name to responders, a transport error or any other status appends it
to failures. -/
def cancel_step (acc : List String × List String) (c : String × CancelOutcome) :
    List String × List String :=
  match c.2 with
  | .transportError => (acc.1, acc.2 ++ [c.1])
  | .response code =>
    if code = 200 then (acc.1 ++ [c.1], acc.2) else (acc.1, acc.2 ++ [c.1])

/-- Whether one cancel POST counts as a responder (status exactly 200). -/
def cancelOk : CancelOutcome → Bool
  | .transportError => false
  | .response code => code == 200

/-- routing.broadcast_cancel: each child is paired with the outcome of its
cancel POST; the names are partitioned in iteration order and success is set
when responders is non-empty. -/
def broadcast_cancel (children : List (String × CancelOutcome)) : CancelResult :=
  let rf := children.foldl cancel_step ([], [])
  { success := !rf.1.isEmpty, responders := rf.1, failures := rf.2 }

/-- api.cancel_request: the endpoint status code (200 when any child
responded, else 404) and the JSON body fields success, completed, failed. -/
def cancel_request (children : List (String × CancelOutcome)) :
    Nat × Bool × List String × List String :=
  let result := broadcast_cancel children
  ( if result.success then 200 else 404,
    result.success, result.responders, result.failures )

/- ===== coordinator/manager.py: SlotManager ===== -/

/-- types.ProfileSlot: the fixed port triplet with the current occupant.
The child field is slot.process in the source. -/
structure ProfileSlot where
  ports : ChildPorts
  profile : Option AuthProfile
  child : Option Child
deriving DecidableEq, Repr

/-- manager.SlotManager state relevant to eviction: the slot list and the
rotation queue. types.ProfileQueue is a FIFO deque: push appends at the
back, pop takes the front, push_front prepends. -/
structure SlotManager where
  slots : List ProfileSlot
  queue : List AuthProfile
deriving DecidableEq, Repr

/-- manager.SlotManager._terminate_slot: clears the slot fields when an
occupant is present; the returned id is the occupant whose OS process is
guaranteed exited afterwards (terminate, wait up to 10 s, then kill). -/
def terminate_slot (slot : ProfileSlot) : ProfileSlot × Option Nat :=
  match slot.child with
  | none => (slot, none)
  | some c => ({ slot with child := none, profile := none }, some c.pid)

/-- The child launcher as an oracle: none models launch_child raising. -/
abbrev LaunchFn := AuthProfile → ChildPorts → Option Child

/-- manager.SlotManager._launch_into_slot: on success the slot is bound to
the profile and the new child, whose ready flag is forced to false. A none
result models the launcher raising, in which case the slot is untouched. -/
def launch_into_slot (launch : LaunchFn) (slot : ProfileSlot)
    (profile : AuthProfile) : Option (ProfileSlot × Child) :=
  match launch profile slot.ports with
  | none => none
  | some c =>
    let c1 := { c with ready := false }
    some ({ slot with profile := some profile, child := some c1 }, c1)

/-- manager.SlotManager.evict_child (lines 84-147): locate the slot whose
occupant is the given child (by object identity, modelled by pid); if none,
or the slot has no profile, return none without touching state. Otherwise
terminate the occupant, push the evicted profile to the back of the queue,
pop the front as the replacement candidate and launch it into the slot. A
failed launch clears the slot and pushes the candidate back to the front.
Returns the new state, the replacement child (none when no replacement was
launched) and the id of the terminated occupant. -/
def SlotManager.evict_child (launch : LaunchFn) (m : SlotManager) (pid : Nat) :
    SlotManager × Option Child × Option Nat :=
  match m.slots.findIdx? (fun s => s.child.any (fun c => c.pid == pid)) with
  | none => (m, none, none)
  | some i =>
    match m.slots[i]? with
    | none => (m, none, none)
    | some slot =>
      match slot.profile with
      | none => (m, none, none)
      | some current =>
        let ts := terminate_slot slot
        let q1 := m.queue ++ [current]
        match q1 with
        | [] =>
          ({ slots := m.slots.set i { ts.1 with profile := none, child := none },
             queue := [] }, none, ts.2)
        | nxt :: qrest =>
          match launch_into_slot launch ts.1 nxt with
          | none =>
            ({ slots := m.slots.set i { ts.1 with profile := none, child := none },
               queue := nxt :: qrest }, none, ts.2)
          | some sc =>
            ({ slots := m.slots.set i sc.1, queue := qrest }, some sc.2, ts.2)

/- ===== coordinator/manager.py: ChildRegistry ===== -/

/-- Mutable fields of a ChildProcess object as stored on the heap of the
registry model. -/
structure ChildData where
  name : String
  alive : Bool
  ready : Bool
deriving DecidableEq, Repr

/-- Heap update at one object id. -/
def updateStore (store : Nat → ChildData) (pid : Nat) (d : ChildData) :
    Nat → ChildData :=
  fun q => if q = pid then d else store q

/-- Python dict assignment (insertion order preserved, keys unique). -/
def mapSet : List (String × Nat) → String → Nat → List (String × Nat)
  | [], n, p => [(n, p)]
  | (k, v) :: rest, n, p =>
    if k = n then (k, p) :: rest else (k, v) :: mapSet rest n p

/-- Python dict.pop with a default: drop the binding of the key if present. -/
def mapPop : List (String × Nat) → String → List (String × Nat)
  | [], _ => []
  | (k, v) :: rest, n => if k = n then rest else (k, v) :: mapPop rest n

/-- Python dict lookup. -/
def mapGet : List (String × Nat) → String → Option Nat
  | [], _ => none
  | (k, v) :: rest, n => if k = n then some v else mapGet rest n

/-- Python set.add for the unhealthy name set (only membership matters; the
model keeps first-insertion order). -/
def insertName (n : String) (l : List String) : List String :=
  if n ∈ l then l else l ++ [n]

/-- manager.ChildRegistry state: the heap of child objects, the children
dict mapping profile names to objects, the ready deque and the unhealthy
name set. -/
structure ChildRegistry where
  store : Nat → ChildData
  children : List (String × Nat)
  ready : List Nat
  unhealthy : List String

/-- manager.ChildRegistry.mark_ready: a dead process is a no-op; otherwise
set the ready flag, register the child under its name, drop it from
unhealthy, and append it to the ready deque when absent. -/
def ChildRegistry.mark_ready (r : ChildRegistry) (pid : Nat) : ChildRegistry :=
  let d := r.store pid
  if d.alive then
    { store := updateStore r.store pid { d with ready := true }
      children := mapSet r.children d.name pid
      ready := if pid ∈ r.ready then r.ready else r.ready ++ [pid]
      unhealthy := r.unhealthy.filter (· ≠ d.name) }
  else r

/-- manager.ChildRegistry.next_child, recursing over the ready deque: a
demoted head gets its ready flag cleared on the heap and its name added to
unhealthy before being popped; a healthy head is rotated to the back and
returned; an exhausted deque yields none. -/
def next_child_aux (store : Nat → ChildData) (unhealthy : List String) :
    List Nat → (Nat → ChildData) × List String × List Nat × Option Nat
  | [] => (store, unhealthy, [], none)
  | pid :: rest =>
    let d := store pid
    if d.alive && d.ready then (store, unhealthy, rest ++ [pid], some pid)
    else
      next_child_aux (updateStore store pid { d with ready := false })
        (insertName d.name unhealthy) rest

/-- manager.ChildRegistry.next_child packaged on the registry state. -/
def ChildRegistry.next_child (r : ChildRegistry) : ChildRegistry × Option Nat :=
  let out := next_child_aux r.store r.unhealthy r.ready
  ({ r with store := out.1, unhealthy := out.2.1, ready := out.2.2.1 },
   out.2.2.2)

/-- Iterate next_child, collecting the selected ids in call order. -/
def next_child_iter (r : ChildRegistry) : Nat → ChildRegistry × List Nat
  | 0 => (r, [])
  | k + 1 =>
    let step := ChildRegistry.next_child r
    let rest := next_child_iter step.1 k
    (rest.1, step.2.toList ++ rest.2)

/-- The selection sequence produced by next_child over an all-healthy deque:
pure round-robin rotation. -/
def rrSelect : Nat → List Nat → List Nat
  | 0, _ => []
  | _ + 1, [] => []
  | k + 1, pid :: rest => pid :: rrSelect k (rest ++ [pid])

/-- manager.ChildRegistry._remove_child: drop the name binding, filter the
object out of the ready deque, and discard the name from unhealthy. -/
def ChildRegistry.remove_child (r : ChildRegistry) (pid : Nat) : ChildRegistry :=
  let name := (r.store pid).name
  { r with
      children := mapPop r.children name
      ready := r.ready.filter (· ≠ pid)
      unhealthy := r.unhealthy.filter (· ≠ name) }

/-- manager.ChildRegistry._add_child: the new child object is written to the
heap and registered under its name; a ready live child joins the ready deque
and leaves unhealthy, anything else has its ready flag cleared and joins
unhealthy. -/
def ChildRegistry.add_child (r : ChildRegistry) (c : Child) : ChildRegistry :=
  let d : ChildData := { name := c.profile, alive := c.alive, ready := c.ready }
  let r1 := { r with
                store := updateStore r.store c.pid d
                children := mapSet r.children d.name c.pid }
  if d.ready && d.alive then
    { r1 with
        ready := if c.pid ∈ r1.ready then r1.ready else r1.ready ++ [c.pid]
        unhealthy := r1.unhealthy.filter (· ≠ d.name) }
  else
    { r1 with
        store := updateStore r1.store c.pid { d with ready := false }
        unhealthy := insertName d.name r1.unhealthy }

/-- manager.ChildRegistry.evict_child composed with ChildRegistry._evict for
a configured slot manager: clear the ready flag, request the eviction from
the slot manager, drop the old child from the registry, and add the
replacement when one launched. -/
def ChildRegistry.evict_child (launch : LaunchFn) (r : ChildRegistry)
    (m : SlotManager) (pid : Nat) : ChildRegistry × SlotManager × Option Child :=
  let d := r.store pid
  let r0 := { r with store := updateStore r.store pid { d with ready := false } }
  let out := SlotManager.evict_child launch m pid
  let r1 := ChildRegistry.remove_child r0 pid
  match out.2.1 with
  | none => (r1, out.1, none)
  | some c => (ChildRegistry.add_child r1 c, out.1, some c)

/- ===== coordinator/api.py: request loops ===== -/

/-- Result of a coordinator endpoint: an HTTPException with status and
detail, a relayed child response (modelled by its status code), or fuel
exhaustion of the model (the Python loop is unbounded). -/
inductive ApiResult
  | httpError (status : Nat) (detail : String)
  | relay (status : Nat)
  | fuelOut
deriving DecidableEq, Repr

/-- The retry loop shared by api.chat_completions and api.list_models: take
next_child; a missing or already-attempted child yields 503; a retryable
child request error demotes the child (the mark_unhealthy transition is an
oracle) and retries; a non-retryable error yields 502; otherwise the child
response is relayed. Also returns the ids of the children contacted and the
final registry. -/
def retry_loop (fw : Nat → Except ChildRequestError Nat)
    (demote : ChildRegistry → Nat → ChildRegistry) :
    Nat → ChildRegistry → List String → ApiResult × List Nat × ChildRegistry
  | 0, r, _ => (.fuelOut, [], r)
  | fuel + 1, r, attempted =>
    let rc := ChildRegistry.next_child r
    match rc.2 with
    | none => (.httpError 503 "No healthy child proxies available.", [], rc.1)
    | some pid =>
      let name := (rc.1.store pid).name
      if name ∈ attempted then
        (.httpError 503 "No healthy child proxies available.", [], rc.1)
      else
        match fw pid with
        | .error e =>
          if e.retryable then
            let rest := retry_loop fw demote fuel (demote rc.1 pid)
              (attempted ++ [name])
            (rest.1, pid :: rest.2.1, rest.2.2)
          else (.httpError 502 e.message, [pid], rc.1)
        | .ok code => (.relay code, [pid], rc.1)

/-- Parse and validation outcome of the incoming chat completion body. -/
inductive BodyParse
  | parseError (msg : String)
  | invalidJson
  | validationError (detail : String)
  | valid (stream : Bool)
deriving DecidableEq, Repr

/-- api.chat_completions: JSON decode errors yield 400, validation errors
yield 422, a validated payload with the stream flag set yields 400 before
any child is selected, and otherwise the retry loop runs with
forward_completion outcomes supplied per child id. -/
def chat_completions (body : BodyParse) (outcome : Nat → ForwardOutcome)
    (demote : ChildRegistry → Nat → ChildRegistry) (fuel : Nat)
    (r : ChildRegistry) : ApiResult × List Nat × ChildRegistry :=
  match body with
  | .parseError msg => (.httpError 400 msg, [], r)
  | .invalidJson => (.httpError 400 "Invalid JSON payload.", [], r)
  | .validationError detail => (.httpError 422 detail, [], r)
  | .valid stream =>
    if stream then
      (.httpError 400 "Streaming is not supported by the coordinator.", [], r)
    else
      retry_loop (fun pid => forward_completion (outcome pid)) demote fuel r []

/-- api.list_models: the same retry loop over forward_models. -/
def list_models (outcome : Nat → ForwardOutcome)
    (demote : ChildRegistry → Nat → ChildRegistry) (fuel : Nat)
    (r : ChildRegistry) : ApiResult × List Nat × ChildRegistry :=
  retry_loop (fun pid => forward_models (outcome pid)) demote fuel r []

/- ===== general lemmas about the model ===== -/

theorem updateStore_same (s : Nat → ChildData) (pid : Nat) (d : ChildData) :
    updateStore s pid d pid = d := by
  simp [updateStore]

theorem updateStore_collapse (s : Nat → ChildData) (pid : Nat)
    (d d' : ChildData) :
    updateStore (updateStore s pid d) pid d' = updateStore s pid d' := by
  funext q
  by_cases h : q = pid <;> simp [updateStore, h]

theorem mapSet_idem (m : List (String × Nat)) (n : String) (p : Nat) :
    mapSet (mapSet m n p) n p = mapSet m n p := by
  induction m with
  | nil => simp [mapSet]
  | cons kv rest ih =>
    obtain ⟨k, v⟩ := kv
    by_cases h : k = n
    · simp [mapSet, h]
    · simp [mapSet, h, ih]

theorem mapGet_mapSet (m : List (String × Nat)) (n : String) (p : Nat) :
    mapGet (mapSet m n p) n = some p := by
  induction m with
  | nil => simp [mapSet, mapGet]
  | cons kv rest ih =>
    obtain ⟨k, v⟩ := kv
    by_cases h : k = n
    · simp [mapSet, mapGet, h]
    · simp [mapSet, mapGet, h, ih]

theorem cancel_foldl_spec (children : List (String × CancelOutcome))
    (acc : List String × List String) :
    children.foldl cancel_step acc =
      (acc.1 ++ (children.filter fun c => cancelOk c.2).map Prod.fst,
       acc.2 ++ (children.filter fun c => !cancelOk c.2).map Prod.fst) := by
  induction children generalizing acc with
  | nil => simp
  | cons c rest ih =>
    obtain ⟨name, oc⟩ := c
    cases oc with
    | transportError =>
      simp [cancel_step, cancelOk, ih, List.filter_cons]
    | response code =>
      by_cases h : code = 200
      · subst h
        simp [cancel_step, cancelOk, ih, List.filter_cons]
      · simp [cancel_step, cancelOk, h, ih, List.filter_cons]

theorem forward_models_eq_forward_completion :
    forward_models = forward_completion := by
  funext o
  cases o <;> rfl

theorem forward_completion_error_retryable (o : ForwardOutcome)
    (e : ChildRequestError) (h : forward_completion o = .error e) :
    e.retryable = true := by
  cases o with
  | transportError msg =>
    simp [forward_completion] at h
    simp [← h]
  | response code =>
    by_cases hc : code ≥ 500 <;> simp [forward_completion, hc] at h
    simp [← h]

theorem forward_completion_ok_lt_500 (o : ForwardOutcome) (code : Nat)
    (h : forward_completion o = .ok code) : code < 500 := by
  cases o with
  | transportError msg => simp [forward_completion] at h
  | response c =>
    by_cases hc : c ≥ 500 <;> simp [forward_completion, hc] at h
    omega

theorem retry_loop_classify (fw : Nat → Except ChildRequestError Nat)
    (demote : ChildRegistry → Nat → ChildRegistry)
    (hret : ∀ pid e, fw pid = .error e → e.retryable = true)
    (hok : ∀ pid code, fw pid = .ok code → code < 500) :
    ∀ (fuel : Nat) (r : ChildRegistry) (attempted : List String),
      (retry_loop fw demote fuel r attempted).1 = .fuelOut ∨
      (retry_loop fw demote fuel r attempted).1 =
        .httpError 503 "No healthy child proxies available." ∨
      ∃ code, code < 500 ∧
        (retry_loop fw demote fuel r attempted).1 = .relay code := by
  intro fuel
  induction fuel with
  | zero => intro r attempted; left; rfl
  | succ n ih =>
    intro r attempted
    rw [retry_loop]
    cases hsel : (ChildRegistry.next_child r).2 with
    | none => right; left; simp [hsel]
    | some pid =>
      by_cases hatt : ((ChildRegistry.next_child r).1.store pid).name ∈ attempted
      · right; left; simp [hsel, hatt]
      · cases hfw : fw pid with
        | error e =>
          have := hret pid e hfw
          simpa [hsel, hatt, hfw, this] using
            ih (demote (ChildRegistry.next_child r).1 pid)
              (attempted ++ [((ChildRegistry.next_child r).1.store pid).name])
        | ok code =>
          right; right
          exact ⟨code, hok pid code hfw, by simp [hsel, hatt, hfw]⟩

theorem rrSelect_nil (k : Nat) : rrSelect k [] = [] := by
  cases k <;> rfl

theorem rrSelect_take :
    ∀ (k : Nat) (l : List Nat), k ≤ l.length → rrSelect k l = l.take k := by
  intro k
  induction k with
  | zero => intro l _; simp [rrSelect]
  | succ n ih =>
    intro l hl
    cases l with
    | nil => simp at hl
    | cons c t =>
      have ht : n ≤ t.length := by simpa using Nat.succ_le_succ_iff.mp hl
      have h2 : n ≤ (t ++ [c]).length := by simp; omega
      rw [rrSelect, ih _ h2]
      simp [List.take_append_eq_append_take, Nat.sub_eq_zero_of_le ht]

theorem rrSelect_block :
    ∀ (l₁ l₂ : List Nat) (k : Nat),
      rrSelect (l₁.length + k) (l₁ ++ l₂) = l₁ ++ rrSelect k (l₂ ++ l₁) := by
  intro l₁
  induction l₁ with
  | nil => intro l₂ k; simp
  | cons a t ih =>
    intro l₂ k
    have hlen : (a :: t).length + k = (t.length + k) + 1 := by
      simp [List.length_cons]; omega
    rw [hlen]
    show rrSelect ((t.length + k) + 1) (a :: (t ++ l₂)) =
      a :: (t ++ rrSelect k (l₂ ++ (a :: t)))
    rw [rrSelect]
    congr 1
    rw [List.append_assoc, ih (l₂ ++ [a]) k]
    congr 2
    simp

theorem rrSelect_cycle (l : List Nat) (k : Nat) :
    rrSelect (l.length + k) l = l ++ rrSelect k l := by
  simpa using rrSelect_block l [] k

theorem rrSelect_count_bounds (l : List Nat) (hnd : l.Nodup) (x : Nat)
    (hx : x ∈ l) :
    ∀ k : Nat, k / l.length ≤ (rrSelect k l).count x ∧
      (rrSelect k l).count x ≤ (k + l.length - 1) / l.length := by
  have hM : 0 < l.length := List.length_pos.mpr (List.ne_nil_of_mem hx)
  have hcnt : l.count x = 1 := List.count_eq_one_of_mem hnd hx
  intro k
  induction k using Nat.strong_induction_on with
  | _ k ih =>
    by_cases hk : k < l.length
    · rw [rrSelect_take k l (le_of_lt hk)]
      refine ⟨by rw [Nat.div_eq_of_lt hk]; exact Nat.zero_le _, ?_⟩
      have h1 : (l.take k).count x ≤ l.count x := (List.take_sublist k l).count_le x
      rcases Nat.eq_zero_or_pos k with h0 | hpos
      · subst h0; simp
      · have h2 : 1 ≤ (k + l.length - 1) / l.length := by
          rw [Nat.le_div_iff_mul_le hM]; omega
        omega
    · push_neg at hk
      obtain ⟨k', rfl⟩ : ∃ k', k = l.length + k' := ⟨k - l.length, by omega⟩
      rw [rrSelect_cycle, List.count_append]
      have ihk := ih k' (by omega)
      constructor
      · have hdiv : (l.length + k') / l.length = k' / l.length + 1 := by
          rw [Nat.add_comm l.length k', Nat.add_div_right _ hM]
        omega
      · have hdiv : (l.length + k' + l.length - 1) / l.length =
            (k' + l.length - 1) / l.length + 1 := by
          have h1 : l.length + k' + l.length - 1 = (k' + l.length - 1) + l.length := by
            omega
          rw [h1, Nat.add_div_right _ hM]
        omega

theorem next_child_empty (r : ChildRegistry) (h : r.ready = []) :
    ChildRegistry.next_child r = (r, none) := by
  obtain ⟨s, c, rd, u⟩ := r
  simp only at h
  subst h
  simp [ChildRegistry.next_child, next_child_aux]

theorem next_child_healthy_head (r : ChildRegistry) (pid : Nat)
    (rest : List Nat) (hd : r.ready = pid :: rest)
    (ha : (r.store pid).alive = true) (hr : (r.store pid).ready = true) :
    ChildRegistry.next_child r = ({ r with ready := rest ++ [pid] }, some pid) := by
  simp [ChildRegistry.next_child, next_child_aux, hd, ha, hr]

theorem next_child_aux_sound :
    ∀ (deque : List Nat) (store : Nat → ChildData) (unhealthy : List String)
      (pid : Nat),
      (next_child_aux store unhealthy deque).2.2.2 = some pid →
      ((next_child_aux store unhealthy deque).1 pid).alive = true ∧
      ((next_child_aux store unhealthy deque).1 pid).ready = true := by
  intro deque
  induction deque with
  | nil =>
    intro store u pid h
    simp [next_child_aux] at h
  | cons q rest ih =>
    intro store u pid h
    by_cases hq : (store q).alive && (store q).ready
    · rw [next_child_aux] at h ⊢
      simp only [hq, if_pos] at h ⊢
      simp at h
      subst h
      simpa using hq
    · rw [next_child_aux] at h ⊢
      simp only [hq, if_neg, Bool.false_eq_true, not_false_eq_true] at h ⊢
      exact ih _ _ _ h

theorem next_child_iter_healthy (r : ChildRegistry)
    (h : ∀ p ∈ r.ready, (r.store p).alive = true ∧ (r.store p).ready = true) :
    ∀ k : Nat,
      next_child_iter r k = ({ r with ready := r.ready.rotate k }, rrSelect k r.ready) := by
  intro k
  induction k generalizing r with
  | zero => simp [next_child_iter, rrSelect]
  | succ n ih =>
    cases hd : r.ready with
    | nil =>
      have hstep := next_child_empty r hd
      have hrec := ih r h
      rw [next_child_iter, hstep]
      simp [hrec, hd, rrSelect_nil]
    | cons pid rest =>
      have hh := h pid (by rw [hd]; exact List.mem_cons_self pid rest)
      have hstep := next_child_healthy_head r pid rest hd hh.1 hh.2
      have h1 : ∀ p ∈ rest ++ [pid],
          (r.store p).alive = true ∧ (r.store p).ready = true := by
        intro p hp
        apply h
        rw [hd]
        rcases List.mem_append.mp hp with hp | hp
        · exact List.mem_cons_of_mem _ hp
        · simp at hp; simp [hp]
      have hrec := ih { r with ready := rest ++ [pid] } h1
      rw [next_child_iter, hstep]
      simp only [hrec]
      simp [List.rotate_cons_succ, rrSelect]

theorem evict_child_launch_ok (launch : LaunchFn) (m : SlotManager)
    (pid i : Nat) (slot : ProfileSlot) (c : Child) (current : AuthProfile)
    (nxt : AuthProfile) (qrest : List AuthProfile) (c0 : Child)
    (hfind : m.slots.findIdx? (fun s => s.child.any (fun x => x.pid == pid)) =
      some i)
    (hget : m.slots[i]? = some slot)
    (hchild : slot.child = some c)
    (hprof : slot.profile = some current)
    (hq1 : m.queue ++ [current] = nxt :: qrest)
    (hc0 : launch nxt slot.ports = some c0) :
    SlotManager.evict_child launch m pid =
      ({ slots := m.slots.set i
            { slot with profile := some nxt,
                        child := some { c0 with ready := false } },
         queue := qrest },
       some { c0 with ready := false }, some c.pid) := by
  simp [SlotManager.evict_child, hfind, hget, hprof, hchild, terminate_slot,
    hq1, launch_into_slot, hc0]

theorem evict_child_launch_fail (launch : LaunchFn) (m : SlotManager)
    (pid i : Nat) (slot : ProfileSlot) (c : Child) (current : AuthProfile)
    (nxt : AuthProfile) (qrest : List AuthProfile)
    (hfind : m.slots.findIdx? (fun s => s.child.any (fun x => x.pid == pid)) =
      some i)
    (hget : m.slots[i]? = some slot)
    (hchild : slot.child = some c)
    (hprof : slot.profile = some current)
    (hq1 : m.queue ++ [current] = nxt :: qrest)
    (hc0 : launch nxt slot.ports = none) :
    SlotManager.evict_child launch m pid =
      ({ slots := m.slots.set i { slot with profile := none, child := none },
         queue := nxt :: qrest },
       none, some c.pid) := by
  simp [SlotManager.evict_child, hfind, hget, hprof, hchild, terminate_slot,
    hq1, launch_into_slot, hc0]

theorem registry_receives_replacement (launch : LaunchFn) (r : ChildRegistry)
    (m : SlotManager) (pid : Nat) (crepl : Child)
    (hrepl : (SlotManager.evict_child launch m pid).2.1 = some crepl) :
    mapGet (ChildRegistry.evict_child launch r m pid).1.children crepl.profile =
      some crepl.pid := by
  simp only [ChildRegistry.evict_child, hrepl]
  by_cases hb : (crepl.ready && crepl.alive) = true
  · simp [ChildRegistry.add_child, hb, mapGet_mapSet]
  · simp [ChildRegistry.add_child, hb, mapGet_mapSet]

/- ===== claim theorems ===== -/

/-- Claim C5: if wait_for_ready returns true then the child ready flag is
true on return, and true is returned exactly when some poll before the
monotonic deadline got HTTP 200 with a JSON status field equal to OK; an
exhausted deadline (all polls used up) returns false. The model is a total
function because the source catches every individual poll failure (non-200
status, JSON decode error, transport error). -/
theorem C5_wait_for_ready (child : Child) (polls : List PollOutcome) :
    ((wait_for_ready child polls).2 = true →
      (wait_for_ready child polls).1.ready = true)
    ∧ ((wait_for_ready child polls).2 = true ↔ ∃ p ∈ polls, pollOk p = true) := by
  induction polls with
  | nil => simp [wait_for_ready]
  | cons p rest ih =>
    by_cases hp : pollOk p
    · simp [wait_for_ready, hp]
    · simp only [wait_for_ready, hp, Bool.false_eq_true, if_false,
        List.mem_cons]
      constructor
      · exact ih.1
      · rw [ih.2]
        constructor
        · intro h
          obtain ⟨q, hq, hqok⟩ := h
          exact ⟨q, Or.inr hq, hqok⟩
        · intro h
          obtain ⟨q, hq, hqok⟩ := h
          rcases hq with hq | hq
          · subst hq; exact absurd hqok hp
          · exact ⟨q, hq, hqok⟩

/-- Claim C5 witness at a concrete child and poll sequence. -/
theorem C5_wait_for_ready_witness :
    (wait_for_ready ⟨1, "a", true, false⟩
      [.transportError, .response 500 none, .response 200 none,
       .response 200 (some (some "OK"))]).1.ready = true :=
  (C5_wait_for_ready _ _).1 (by decide)

/-- Claim C6: broadcast_cancel partitions the children in iteration order by
the outcome of their cancel POST (200 into responders, transport error or
any other status into failures, each child contributing to exactly one list
when profile names are distinct), success holds exactly when responders is
non-empty, and the cancel endpoint answers 200 when success and 404
otherwise, with body fields success, completed, failed. -/
theorem C6_broadcast_cancel (children : List (String × CancelOutcome)) :
    (broadcast_cancel children).responders =
        (children.filter fun c => cancelOk c.2).map Prod.fst
    ∧ (broadcast_cancel children).failures =
        (children.filter fun c => !cancelOk c.2).map Prod.fst
    ∧ ((broadcast_cancel children).success = true ↔
        (broadcast_cancel children).responders ≠ [])
    ∧ cancel_request children =
        (if (broadcast_cancel children).success then 200 else 404,
         (broadcast_cancel children).success,
         (broadcast_cancel children).responders,
         (broadcast_cancel children).failures)
    ∧ ((children.map Prod.fst).Nodup → ∀ c ∈ children,
        (c.1 ∈ (broadcast_cancel children).responders ∧
         c.1 ∉ (broadcast_cancel children).failures) ∨
        (c.1 ∉ (broadcast_cancel children).responders ∧
         c.1 ∈ (broadcast_cancel children).failures)) := by
  have hfold := cancel_foldl_spec children ([], [])
  have hresp : (broadcast_cancel children).responders =
      (children.filter fun c => cancelOk c.2).map Prod.fst := by
    simp [broadcast_cancel, hfold]
  have hfail : (broadcast_cancel children).failures =
      (children.filter fun c => !cancelOk c.2).map Prod.fst := by
    simp [broadcast_cancel, hfold]
  refine ⟨hresp, hfail, ?_, rfl, ?_⟩
  · simp [broadcast_cancel, hfold, List.isEmpty_iff]
  · intro hnd c hc
    by_cases hok : cancelOk c.2 = true
    · left
      constructor
      · rw [hresp]
        exact List.mem_map.mpr ⟨c, List.mem_filter.mpr ⟨hc, hok⟩, rfl⟩
      · rw [hfail]
        intro hmem
        obtain ⟨c', hc', hfst⟩ := List.mem_map.mp hmem
        have hc'mem := (List.mem_filter.mp hc').1
        have hc'bad := (List.mem_filter.mp hc').2
        have : c' = c := List.inj_on_of_nodup_map hnd hc'mem hc hfst
        subst this
        simp [hok] at hc'bad
    · right
      have hok' : cancelOk c.2 = false := by
        cases h : cancelOk c.2
        · rfl
        · exact absurd h hok
      constructor
      · rw [hresp]
        intro hmem
        obtain ⟨c', hc', hfst⟩ := List.mem_map.mp hmem
        have hc'mem := (List.mem_filter.mp hc').1
        have hc'ok := (List.mem_filter.mp hc').2
        have : c' = c := List.inj_on_of_nodup_map hnd hc'mem hc hfst
        subst this
        simp [hok'] at hc'ok
      · rw [hfail]
        exact List.mem_map.mpr
          ⟨c, List.mem_filter.mpr ⟨hc, by simp [hok']⟩, rfl⟩

/-- Claim C6 witness at a concrete child list with one responder and one
failure. -/
theorem C6_broadcast_cancel_witness :
    ("OK" ∈ (broadcast_cancel [("OK", .response 200), ("FAIL", .response 500)]).responders ∧
     "OK" ∉ (broadcast_cancel [("OK", .response 200), ("FAIL", .response 500)]).failures) ∨
    ("OK" ∉ (broadcast_cancel [("OK", .response 200), ("FAIL", .response 500)]).responders ∧
     "OK" ∈ (broadcast_cancel [("OK", .response 200), ("FAIL", .response 500)]).failures) :=
  (C6_broadcast_cancel _).2.2.2.2 (by decide) ("OK", .response 200) (by decide)

/-- Claim C7: assign_ports with a non-negative count and a positive step
returns exactly count triplets whose i-th element offsets each base by i
times step; count 0 with a valid step returns the empty list; a negative
count or a non-positive step fails with the corresponding ValueError. -/
theorem C7_assign_ports (count base_api base_stream base_camoufox step : Int) :
    (0 ≤ count → 1 ≤ step →
      ∃ l, assign_ports count base_api base_stream base_camoufox step = .ok l
        ∧ l.length = count.toNat
        ∧ ∀ i : Nat, i < count.toNat →
            l[i]? = some { api_port := base_api + i * step,
                           stream_port := base_stream + i * step,
                           camoufox_port := base_camoufox + i * step })
    ∧ (count = 0 → 1 ≤ step →
        assign_ports count base_api base_stream base_camoufox step = .ok [])
    ∧ (count < 0 →
        assign_ports count base_api base_stream base_camoufox step =
          .error "Child count must be non-negative.")
    ∧ (0 ≤ count → step ≤ 0 →
        assign_ports count base_api base_stream base_camoufox step =
          .error "Port step must be a positive integer.") := by
  refine ⟨?_, ?_, ?_, ?_⟩
  · intro hc hs
    have h1 : ¬ count < 0 := by omega
    have h2 : ¬ step ≤ 0 := by omega
    refine ⟨(List.range count.toNat).map fun index : Nat =>
        ({ api_port := base_api + (index : Int) * step,
           stream_port := base_stream + (index : Int) * step,
           camoufox_port := base_camoufox + (index : Int) * step } : ChildPorts),
      ?_, by simp, ?_⟩
    · simp [assign_ports, h1, h2]
    · intro i hi
      simp [List.getElem?_map, List.getElem?_range hi]
  · intro hc hs
    subst hc
    have h1 : ¬ (0 : Int) < 0 := by omega
    have h2 : ¬ step ≤ 0 := by omega
    simp [assign_ports, h1, h2]
  · intro h
    simp [assign_ports, h]
  · intro hc hs
    have h1 : ¬ count < 0 := by omega
    simp [assign_ports, h1, hs]

/-- Claim C7 witness at concrete arguments. -/
theorem C7_assign_ports_witness :
    ∃ l, assign_ports 3 3100 3200 9222 2 = .ok l
      ∧ l.length = (3 : Int).toNat
      ∧ ∀ i : Nat, i < (3 : Int).toNat →
          l[i]? = some { api_port := 3100 + i * 2,
                         stream_port := 3200 + i * 2,
                         camoufox_port := 9222 + i * 2 } :=
  (C7_assign_ports 3 3100 3200 9222 2).1 (by decide) (by decide)

/-- Claim C9: a validated chat completion payload with the stream flag set
is rejected with 400 and the streaming detail before any child is selected
or contacted: the contacted list is empty and the registry is returned
untouched, for every forwarding oracle, demotion oracle, fuel and registry
state. -/
theorem C9_streaming_rejected (outcome : Nat → ForwardOutcome)
    (demote : ChildRegistry → Nat → ChildRegistry) (fuel : Nat)
    (r : ChildRegistry) :
    chat_completions (.valid true) outcome demote fuel r =
      (.httpError 400 "Streaming is not supported by the coordinator.", [], r) :=
  rfl

/-- Claim C3: next_child never returns a child whose OS process has exited
or whose ready flag is false; an exhausted deque yields none and an
untouched state; a healthy head is rotated to the back and returned; an
unavailable head has its ready flag cleared on the heap, its name added to
the unhealthy set and is removed from the deque before the loop retries. -/
theorem C3_next_child (r : ChildRegistry) :
    (∀ pid, (ChildRegistry.next_child r).2 = some pid →
      ((ChildRegistry.next_child r).1.store pid).alive = true ∧
      ((ChildRegistry.next_child r).1.store pid).ready = true)
    ∧ (r.ready = [] → ChildRegistry.next_child r = (r, none))
    ∧ (∀ pid rest, r.ready = pid :: rest →
        (r.store pid).alive = true → (r.store pid).ready = true →
        ChildRegistry.next_child r = ({ r with ready := rest ++ [pid] }, some pid))
    ∧ (∀ pid rest, r.ready = pid :: rest →
        ((r.store pid).alive = false ∨ (r.store pid).ready = false) →
        ChildRegistry.next_child r =
          ChildRegistry.next_child
            { r with
                store := updateStore r.store pid
                  { r.store pid with ready := false }
                unhealthy := insertName (r.store pid).name r.unhealthy
                ready := rest }) := by
  refine ⟨?_, next_child_empty r, next_child_healthy_head r, ?_⟩
  · intro pid h
    exact next_child_aux_sound r.ready r.store r.unhealthy pid h
  · intro pid rest hd hcond
    have hb : ((r.store pid).alive && (r.store pid).ready) = false := by
      rcases hcond with h | h <;> simp [h]
    simp [ChildRegistry.next_child, next_child_aux, hd, hb]

/-- Claim C3 witness: a registry whose deque head has a dead process demotes
it and returns the healthy second entry. -/
theorem C3_next_child_witness :
    ChildRegistry.next_child
        { store := fun p => if p = 1 then ⟨"a", false, true⟩ else ⟨"b", true, true⟩,
          children := [("a", 1), ("b", 2)], ready := [1, 2], unhealthy := [] } =
      ChildRegistry.next_child
        { store := updateStore
            (fun p => if p = 1 then ⟨"a", false, true⟩ else ⟨"b", true, true⟩) 1
            { (if (1 : Nat) = 1 then (⟨"a", false, true⟩ : ChildData)
               else ⟨"b", true, true⟩) with ready := false },
          children := [("a", 1), ("b", 2)], ready := [2],
          unhealthy := insertName "a" [] } := by
  have h := (C3_next_child
    { store := fun p => if p = 1 then ⟨"a", false, true⟩ else ⟨"b", true, true⟩,
      children := [("a", 1), ("b", 2)], ready := [1, 2],
      unhealthy := [] }).2.2.2 1 [2] rfl (by decide)
  simpa using h

/-- Claim C4: against M distinct healthy ready children and no membership
change, K calls to next_child select each child c with K / M ≤ count c and
count c ≤ (K + M - 1) / M (the floor and ceiling of K / M), and no child is
selected twice before every child has been selected at least once. -/
theorem C4_round_robin (r : ChildRegistry) (K pid : Nat)
    (hH : ∀ p ∈ r.ready, (r.store p).alive = true ∧ (r.store p).ready = true)
    (hnd : r.ready.Nodup) (hpid : pid ∈ r.ready) :
    K / r.ready.length ≤ (next_child_iter r K).2.count pid
    ∧ (next_child_iter r K).2.count pid ≤
        (K + r.ready.length - 1) / r.ready.length
    ∧ (∀ q ∈ r.ready, 2 ≤ (next_child_iter r K).2.count pid →
        1 ≤ (next_child_iter r K).2.count q) := by
  have hb := next_child_iter_healthy r hH K
  simp only [hb]
  have bounds := rrSelect_count_bounds r.ready hnd pid hpid K
  refine ⟨bounds.1, bounds.2, ?_⟩
  intro q hq h2
  have bq := rrSelect_count_bounds r.ready hnd q hq K
  have hM : 0 < r.ready.length := List.length_pos.mpr (List.ne_nil_of_mem hpid)
  have h2' : 2 ≤ (K + r.ready.length - 1) / r.ready.length :=
    le_trans h2 bounds.2
  rw [Nat.le_div_iff_mul_le hM] at h2'
  have h3 : 1 ≤ K / r.ready.length := by
    rw [Nat.le_div_iff_mul_le hM]
    omega
  exact le_trans h3 bq.1

/-- Claim C4 witness: two healthy children, three selections, the head child
is selected twice and ceiling bound 2 holds. -/
theorem C4_round_robin_witness :
    3 / ([1, 2] : List Nat).length ≤
      (next_child_iter
        { store := fun p => if p = 1 then ⟨"a", true, true⟩ else ⟨"b", true, true⟩,
          children := [("a", 1), ("b", 2)], ready := [1, 2],
          unhealthy := [] } 3).2.count 1 :=
  (C4_round_robin
    { store := fun p => if p = 1 then ⟨"a", true, true⟩ else ⟨"b", true, true⟩,
      children := [("a", 1), ("b", 2)], ready := [1, 2], unhealthy := [] }
    3 1 (by decide) (by decide) (by decide)).1

/-- Claim C8: mark_ready on a child whose OS process is alive is idempotent
(the second call leaves the registry unchanged), leaves the child ready,
absent from the unhealthy set, and present exactly once in the ready deque
(given it appeared at most once before, the invariant the registry
maintains); on a child whose process has exited it changes no state. -/
theorem C8_mark_ready_idempotent (r : ChildRegistry) (pid : Nat) :
    ((r.store pid).alive = true →
      ChildRegistry.mark_ready (ChildRegistry.mark_ready r pid) pid =
        ChildRegistry.mark_ready r pid
      ∧ ((ChildRegistry.mark_ready r pid).store pid).ready = true
      ∧ (r.store pid).name ∉ (ChildRegistry.mark_ready r pid).unhealthy
      ∧ (r.ready.count pid ≤ 1 →
          (ChildRegistry.mark_ready r pid).ready.count pid = 1))
    ∧ ((r.store pid).alive = false → ChildRegistry.mark_ready r pid = r) := by
  constructor
  · intro ha
    have hs1 : (ChildRegistry.mark_ready r pid).store pid =
        { r.store pid with ready := true } := by
      simp [ChildRegistry.mark_ready, ha, updateStore_same]
    refine ⟨?_, by simp [hs1], ?_, ?_⟩
    · have ha2 : ((ChildRegistry.mark_ready r pid).store pid).alive = true := by
        simp [hs1, ha]
      have hmem : pid ∈ (ChildRegistry.mark_ready r pid).ready := by
        simp only [ChildRegistry.mark_ready, ha, if_true]
        by_cases h : pid ∈ r.ready <;> simp [h]
      simp only [ChildRegistry.mark_ready, ha, if_true] at hmem ⊢
      simp only [updateStore_same, ha, if_true, hmem]
      simp [updateStore_collapse, mapSet_idem, List.filter_filter]
    · simp [ChildRegistry.mark_ready, ha, List.mem_filter]
    · intro hcount
      simp only [ChildRegistry.mark_ready, ha, if_true]
      by_cases h : pid ∈ r.ready
      · have h1 : 0 < r.ready.count pid := List.count_pos_iff.mpr h
        simp only [h, if_true]
        omega
      · have h0 : r.ready.count pid = 0 := by
          simpa using List.count_eq_zero.mpr h
        simp [h, List.count_append, h0]
  · intro hdead
    simp [ChildRegistry.mark_ready, hdead]

/-- Claim C8 witness at a concrete registry with a live child. -/
theorem C8_mark_ready_idempotent_witness :
    ChildRegistry.mark_ready
      (ChildRegistry.mark_ready
        { store := fun _ => ⟨"a", true, false⟩, children := [],
          ready := [], unhealthy := ["a"] } 1) 1 =
    ChildRegistry.mark_ready
      { store := fun _ => ⟨"a", true, false⟩, children := [],
        ready := [], unhealthy := ["a"] } 1 :=
  ((C8_mark_ready_idempotent
    { store := fun _ => ⟨"a", true, false⟩, children := [],
      ready := [], unhealthy := ["a"] } 1).1 (by decide)).1

/-- Claim C10: every ChildRequestError raised by forward_completion or
forward_models carries retryable true (both the transport-error and the 5xx
path use the default), so the 502 branch of the chat-completions and models
retry loops is unreachable: the loops can only relay a child response with
status below 500, answer 503 after exhausting distinct children, or (in the
model) run out of fuel, and the two endpoints never produce a 502. -/
theorem C10_always_retryable :
    (∀ o e, forward_completion o = .error e → e.retryable = true)
    ∧ (∀ o e, forward_models o = .error e → e.retryable = true)
    ∧ (∀ (outcome : Nat → ForwardOutcome)
        (demote : ChildRegistry → Nat → ChildRegistry) (fuel : Nat)
        (r : ChildRegistry) (attempted : List String),
        (retry_loop (fun pid => forward_completion (outcome pid)) demote fuel r
            attempted).1 = .fuelOut ∨
        (retry_loop (fun pid => forward_completion (outcome pid)) demote fuel r
            attempted).1 =
          .httpError 503 "No healthy child proxies available." ∨
        ∃ code, code < 500 ∧
          (retry_loop (fun pid => forward_completion (outcome pid)) demote fuel r
              attempted).1 = .relay code)
    ∧ (∀ (outcome : Nat → ForwardOutcome)
        (demote : ChildRegistry → Nat → ChildRegistry) (fuel : Nat)
        (r : ChildRegistry) (attempted : List String),
        (retry_loop (fun pid => forward_models (outcome pid)) demote fuel r
            attempted).1 = .fuelOut ∨
        (retry_loop (fun pid => forward_models (outcome pid)) demote fuel r
            attempted).1 =
          .httpError 503 "No healthy child proxies available." ∨
        ∃ code, code < 500 ∧
          (retry_loop (fun pid => forward_models (outcome pid)) demote fuel r
              attempted).1 = .relay code)
    ∧ (∀ (body : BodyParse) (outcome : Nat → ForwardOutcome)
        (demote : ChildRegistry → Nat → ChildRegistry) (fuel : Nat)
        (r : ChildRegistry) (detail : String),
        (chat_completions body outcome demote fuel r).1 ≠ .httpError 502 detail)
    ∧ (∀ (outcome : Nat → ForwardOutcome)
        (demote : ChildRegistry → Nat → ChildRegistry) (fuel : Nat)
        (r : ChildRegistry) (detail : String),
        (list_models outcome demote fuel r).1 ≠ .httpError 502 detail) := by
  have hloopc : ∀ (outcome : Nat → ForwardOutcome)
      (demote : ChildRegistry → Nat → ChildRegistry) (fuel : Nat)
      (r : ChildRegistry) (attempted : List String),
      (retry_loop (fun pid => forward_completion (outcome pid)) demote fuel r
          attempted).1 = .fuelOut ∨
      (retry_loop (fun pid => forward_completion (outcome pid)) demote fuel r
          attempted).1 = .httpError 503 "No healthy child proxies available." ∨
      ∃ code, code < 500 ∧
        (retry_loop (fun pid => forward_completion (outcome pid)) demote fuel r
            attempted).1 = .relay code := by
    intro outcome demote fuel r attempted
    exact retry_loop_classify _ demote
      (fun pid e h => forward_completion_error_retryable (outcome pid) e h)
      (fun pid code h => forward_completion_ok_lt_500 (outcome pid) code h)
      fuel r attempted
  have hloopm : ∀ (outcome : Nat → ForwardOutcome)
      (demote : ChildRegistry → Nat → ChildRegistry) (fuel : Nat)
      (r : ChildRegistry) (attempted : List String),
      (retry_loop (fun pid => forward_models (outcome pid)) demote fuel r
          attempted).1 = .fuelOut ∨
      (retry_loop (fun pid => forward_models (outcome pid)) demote fuel r
          attempted).1 = .httpError 503 "No healthy child proxies available." ∨
      ∃ code, code < 500 ∧
        (retry_loop (fun pid => forward_models (outcome pid)) demote fuel r
            attempted).1 = .relay code := by
    intro outcome demote fuel r attempted
    rw [forward_models_eq_forward_completion]
    exact hloopc outcome demote fuel r attempted
  refine ⟨forward_completion_error_retryable, ?_, hloopc, hloopm, ?_, ?_⟩
  · rw [forward_models_eq_forward_completion]
    exact forward_completion_error_retryable
  · intro body outcome demote fuel r detail
    cases body with
    | parseError msg => simp [chat_completions]
    | invalidJson => simp [chat_completions]
    | validationError d => simp [chat_completions]
    | valid stream =>
      cases stream with
      | true => simp [chat_completions]
      | false =>
        simp only [chat_completions]
        rcases hloopc outcome demote fuel r [] with h | h | ⟨code, _, h⟩ <;>
          simp [h]
  · intro outcome demote fuel r detail
    simp only [list_models]
    rcases hloopm outcome demote fuel r [] with h | h | ⟨code, _, h⟩ <;>
      simp [h]

/-- Claim C10 witness: a 500 response from a child raises a retryable
error. -/
theorem C10_always_retryable_witness :
    ({ message := "Child responded with " ++ toString (500 : Nat),
       retryable := true } : ChildRequestError).retryable = true :=
  C10_always_retryable.1 (.response 500)
    { message := "Child responded with " ++ toString (500 : Nat),
      retryable := true } rfl

/-- Claim C1 is false on the code: evict_child pushes the evicted profile
before popping, so with an empty rotation queue the pop returns that very
profile and it is relaunched into the slot; at this concrete input (one
occupied slot, empty queue, a launcher that succeeds) the call does not
return none and does not leave the slot empty. -/
theorem C1_counterexample :
    ¬ ((SlotManager.evict_child (fun n _ => some ⟨2, n, true, true⟩)
          { slots := [{ ports := ⟨3100, 3200, 9222⟩, profile := some "p0",
                        child := some ⟨1, "p0", true, false⟩ }],
            queue := [] } 1).2.1 = none ∧
       (SlotManager.evict_child (fun n _ => some ⟨2, n, true, true⟩)
          { slots := [{ ports := ⟨3100, 3200, 9222⟩, profile := some "p0",
                        child := some ⟨1, "p0", true, false⟩ }],
            queue := [] } 1).1.slots =
         [{ ports := ⟨3100, 3200, 9222⟩, profile := none, child := none }]) := by
  decide

/-- Claim C1 amended: with an empty rotation queue, evict_child on the
current occupant of a slot terminates that occupant, pushes the evicted
profile onto the queue and immediately pops it back as the replacement
candidate (the empty-pop branch of the source is unreachable because the
push precedes the pop), and relaunches the same profile into the slot: on
launch success the relaunched child (ready false) is returned, the slot
keeps its profile, the queue stays empty, and the registry receives the
replacement; only if the relaunch fails is the slot left empty
(profile none, process none), the candidate pushed to the queue front, and
none returned. -/
theorem C1_empty_queue_relaunch (launch : LaunchFn) (m : SlotManager)
    (pid i : Nat) (slot : ProfileSlot) (c : Child) (current : AuthProfile)
    (hq : m.queue = [])
    (hfind : m.slots.findIdx? (fun s => s.child.any (fun x => x.pid == pid)) =
      some i)
    (hget : m.slots[i]? = some slot)
    (hchild : slot.child = some c)
    (hprof : slot.profile = some current) :
    (SlotManager.evict_child launch m pid).2.2 = some c.pid
    ∧ (∀ c0, launch current slot.ports = some c0 →
        (SlotManager.evict_child launch m pid).2.1 =
            some { c0 with ready := false }
        ∧ ({ c0 with ready := false } : Child).ready = false
        ∧ (SlotManager.evict_child launch m pid).1.slots =
            m.slots.set i
              { slot with profile := some current,
                          child := some { c0 with ready := false } }
        ∧ (SlotManager.evict_child launch m pid).1.queue = []
        ∧ ∀ r : ChildRegistry,
            mapGet (ChildRegistry.evict_child launch r m pid).1.children
              c0.profile = some c0.pid)
    ∧ (launch current slot.ports = none →
        (SlotManager.evict_child launch m pid).2.1 = none
        ∧ (SlotManager.evict_child launch m pid).1.slots =
            m.slots.set i { slot with profile := none, child := none }
        ∧ (SlotManager.evict_child launch m pid).1.queue = [current]) := by
  have hq1 : m.queue ++ [current] = current :: [] := by rw [hq]; rfl
  refine ⟨?_, ?_, ?_⟩
  · cases hc0 : launch current slot.ports with
    | none =>
      rw [evict_child_launch_fail launch m pid i slot c current current []
        hfind hget hchild hprof hq1 hc0]
    | some c0 =>
      rw [evict_child_launch_ok launch m pid i slot c current current [] c0
        hfind hget hchild hprof hq1 hc0]
  · intro c0 hc0
    have he := evict_child_launch_ok launch m pid i slot c current current []
      c0 hfind hget hchild hprof hq1 hc0
    refine ⟨by rw [he], rfl, by rw [he], by rw [he], ?_⟩
    intro r
    have hrepl : (SlotManager.evict_child launch m pid).2.1 =
        some { c0 with ready := false } := by rw [he]
    simpa using registry_receives_replacement launch r m pid
      { c0 with ready := false } hrepl
  · intro hc0
    have he := evict_child_launch_fail launch m pid i slot c current current []
      hfind hget hchild hprof hq1 hc0
    exact ⟨by rw [he], by rw [he], by rw [he]⟩

/-- Claim C1 amended witness: one occupied slot, empty queue, a succeeding
launcher; the same profile is relaunched and returned. -/
theorem C1_empty_queue_relaunch_witness :
    (SlotManager.evict_child (fun n _ => some ⟨2, n, true, true⟩)
        { slots := [{ ports := ⟨3100, 3200, 9222⟩, profile := some "p0",
                      child := some ⟨1, "p0", true, false⟩ }],
          queue := [] } 1).2.2 = some (1 : Nat) :=
  (C1_empty_queue_relaunch (fun n _ => some ⟨2, n, true, true⟩)
    { slots := [{ ports := ⟨3100, 3200, 9222⟩, profile := some "p0",
                  child := some ⟨1, "p0", true, false⟩ }],
      queue := [] } 1 0
    { ports := ⟨3100, 3200, 9222⟩, profile := some "p0",
      child := some ⟨1, "p0", true, false⟩ }
    ⟨1, "p0", true, false⟩ "p0" rfl (by decide) rfl rfl rfl).1

/-- Claim C2: when evict_child finds the slot occupied by the given child
(and the slot carries a profile), the evicted profile is pushed to the back
of the rotation queue and the replacement is popped from the front (the
decomposition queue plus evicted equals candidate plus remainder); if the
replacement launch raises, the slot is cleared, the candidate is pushed
back to the front of the queue (not the back) and none is returned; on
success the new child is returned with ready false. -/
theorem C2_evict_recycles (launch : LaunchFn) (m : SlotManager)
    (pid i : Nat) (slot : ProfileSlot) (c : Child) (current : AuthProfile)
    (nxt : AuthProfile) (qrest : List AuthProfile)
    (hfind : m.slots.findIdx? (fun s => s.child.any (fun x => x.pid == pid)) =
      some i)
    (hget : m.slots[i]? = some slot)
    (hchild : slot.child = some c)
    (hprof : slot.profile = some current)
    (hq1 : m.queue ++ [current] = nxt :: qrest) :
    (∀ c0, launch nxt slot.ports = some c0 →
        (SlotManager.evict_child launch m pid).2.1 =
            some { c0 with ready := false }
        ∧ ({ c0 with ready := false } : Child).ready = false
        ∧ (SlotManager.evict_child launch m pid).1.slots =
            m.slots.set i
              { slot with profile := some nxt,
                          child := some { c0 with ready := false } }
        ∧ (SlotManager.evict_child launch m pid).1.queue = qrest)
    ∧ (launch nxt slot.ports = none →
        (SlotManager.evict_child launch m pid).2.1 = none
        ∧ (SlotManager.evict_child launch m pid).1.slots =
            m.slots.set i { slot with profile := none, child := none }
        ∧ (SlotManager.evict_child launch m pid).1.queue = nxt :: qrest) := by
  constructor
  · intro c0 hc0
    have he := evict_child_launch_ok launch m pid i slot c current nxt qrest
      c0 hfind hget hchild hprof hq1 hc0
    exact ⟨by rw [he], rfl, by rw [he], by rw [he]⟩
  · intro hc0
    have he := evict_child_launch_fail launch m pid i slot c current nxt qrest
      hfind hget hchild hprof hq1 hc0
    exact ⟨by rw [he], by rw [he], by rw [he]⟩

/-- Claim C2 witness: queue of two spare profiles; the evicted profile lands
at the back, the front profile is launched into the slot. -/
theorem C2_evict_recycles_witness :
    (SlotManager.evict_child (fun n _ => some ⟨2, n, true, true⟩)
        { slots := [{ ports := ⟨3100, 3200, 9222⟩, profile := some "p0",
                      child := some ⟨1, "p0", true, false⟩ }],
          queue := ["q1", "q2"] } 1).2.1 =
      some ⟨2, "q1", true, false⟩ :=
  ((C2_evict_recycles (fun n _ => some ⟨2, n, true, true⟩)
    { slots := [{ ports := ⟨3100, 3200, 9222⟩, profile := some "p0",
                  child := some ⟨1, "p0", true, false⟩ }],
      queue := ["q1", "q2"] } 1 0
    { ports := ⟨3100, 3200, 9222⟩, profile := some "p0",
      child := some ⟨1, "p0", true, false⟩ }
    ⟨1, "p0", true, false⟩ "p0" "q1" ["q2", "p0"]
    (by decide) rfl rfl rfl rfl).1 ⟨2, "q1", true, true⟩ rfl).1
